import Mathlib

/-!
Verification of the passcards core item-store (`item_store.ts`) against its
natural-language specification.

The data model and the operations below are shallow embeddings of the
TypeScript source.  JavaScript `Date` values are modelled as `Int`
milliseconds since the epoch, nullable fields as `Option`, and the store
reference held by an `Item` as a `Bool` flag (`hasStore`) plus an explicit
`StoreState` threaded through the operations that touch the backing store.
Promise-based fallible operations are modelled as pure functions returning
the post-state of the item together with an `Except`/`Option` outcome; a
call made on the owning store is recorded as a `StoreCall` value.
-/

namespace Passcards

/-- Entry in an item's Websites list (`ItemUrl`). -/
structure ItemUrl where
  label : String
  url : String
deriving DecidableEq

/-- Type of input field in a web form (`FormFieldType`). -/
inductive FormFieldType where
  | Text
  | Password
  | Email
  | Checkbox
  | Input
deriving DecidableEq

/-- Saved value of an input field in a web form (`WebFormField`). -/
structure WebFormField where
  value : String
  id : String
  name : String
  type : FormFieldType
  designation : String
deriving DecidableEq

/-- Type of data stored in an item field (`FieldType`). -/
inductive FieldType where
  | Text
  | Password
  | Address
  | Date
  | MonthYear
  | URL
  | CreditCardType
  | PhoneNumber
  | Gender
  | Email
  | Menu
deriving DecidableEq

/-- A specific property/attribute of an item (`ItemField`).  The source
types `value` as `any`; item fields in practice hold JSON scalars, which
we model as strings. -/
structure ItemField where
  kind : FieldType
  name : String
  title : String
  value : String
deriving DecidableEq

/-- A group of fields in an item (`ItemSection`). -/
structure ItemSection where
  name : String
  title : String
  fields : List ItemField
deriving DecidableEq

/-- The decrypted content of an item (`ItemContent`). -/
structure ItemContent where
  sections : List ItemSection
  urls : List ItemUrl
  notes : String
  formFields : List WebFormField
  htmlMethod : String
  htmlAction : String
  htmlId : String
deriving DecidableEq

/-- Unencrypted overview metadata (`ItemOpenContents`). -/
structure ItemOpenContents where
  tags : List String
  scope : String
deriving DecidableEq

/-- Item type codes from `ItemTypes` used by the embedded operations. -/
def ItemTypes.LOGIN : String := "webforms.WebForm"

/-- The marker type for deleted items (`ItemTypes.TOMBSTONE`). -/
def ItemTypes.TOMBSTONE : String := "system.Tombstone"

/-- A single item in a vault (`Item`).  The private `store` reference is
modelled by the flag `hasStore`; the private `content` cache keeps its
`Option` semantics (`null`/unset versus set). -/
structure Item where
  hasStore : Bool
  revision : Option String
  parentRevision : Option String
  uuid : String
  folderUuid : String
  faveIndex : Option Int
  trashed : Bool
  updatedAt : Option Int
  createdAt : Option Int
  typeName : String
  title : String
  openContents : Option ItemOpenContents
  locations : List String
  account : String
  content : Option ItemContent
deriving DecidableEq

/-- ContentUtil.empty: a new ItemContent with all fields defaulted. -/
def ContentUtil.empty : ItemContent :=
  { sections := []
    urls := []
    notes := ""
    formFields := []
    htmlMethod := ""
    htmlAction := ""
    htmlId := "" }

/-- Item.isTombstone: the item's type is the tombstone marker type. -/
def Item.isTombstone (it : Item) : Bool :=
  it.typeName == ItemTypes.TOMBSTONE

/-- Item.isSaved: the item has a store and its updatedAt is set. -/
def Item.isSaved (it : Item) : Bool :=
  it.hasStore && it.updatedAt.isSome

/-- Errors raised by the item lifecycle operations.  `unsavedItem` is
`UnsavedItemError` (with its fixed message); `saveWithoutContent` is the
plain `Error` thrown by `saveTo` for a new item with no content. -/
inductive ItemError where
  | unsavedItem (msg : String)
  | saveWithoutContent (msg : String)
deriving DecidableEq

/-- The message carried by `UnsavedItemError`. -/
def unsavedItemMessage : String := "Item has not been saved to a store"

/-- A call made by an item on its owning store. -/
inductive StoreCall where
  | saveItem (arg : Item)
  | getRawDecryptedData (arg : Item)
deriving DecidableEq

/-- Item.saveTo: reject a never-saved item with no content, otherwise
associate the item with the target store and call `store.saveItem`. -/
def Item.saveTo (it : Item) : Item × Except ItemError StoreCall :=
  if it.content.isNone && !it.isSaved then
    (it, .error (.saveWithoutContent "Unable to save new item, no content set"))
  else
    let m : Item := { it with hasStore := true }
    (m, .ok (.saveItem m))

/-- Item.save: reject with `UnsavedItemError` when the item has no store,
otherwise save to the associated store. -/
def Item.save (it : Item) : Item × Except ItemError StoreCall :=
  if !it.hasStore then
    (it, .error (.unsavedItem unsavedItemMessage))
  else
    it.saveTo

/-- Item.remove: reject with `UnsavedItemError` when the item has no
store; otherwise erase the item's data, leaving a tombstone, and persist
it through `store.saveItem`. -/
def Item.remove (it : Item) : Item × Except ItemError StoreCall :=
  if !it.hasStore then
    (it, .error (.unsavedItem unsavedItemMessage))
  else
    let m : Item :=
      { it with
          typeName := ItemTypes.TOMBSTONE
          title := "Unnamed"
          trashed := true
          content := some ContentUtil.empty
          folderUuid := ""
          locations := []
          faveIndex := none
          openContents := none }
    (m, .ok (.saveItem m))

/-- Item.getRawDecryptedData: reject with `UnsavedItemError` when the item
has no store, otherwise delegate to `store.getRawDecryptedData`. -/
def Item.getRawDecryptedData (it : Item) : Except ItemError StoreCall :=
  if !it.hasStore then
    .error (.unsavedItem unsavedItemMessage)
  else
    .ok (.getRawDecryptedData it)

/-- Item.updateTimestamps with the current clock reading `now` (ms):
initialize createdAt if unset, set updatedAt to now, and force a minimum
one-second advance over the previous updatedAt. -/
def Item.updateTimestamps (it : Item) (now : Int) : Item :=
  let it1 : Item :=
    if it.createdAt.isNone then { it with createdAt := some now } else it
  let prevDate := it1.updatedAt
  let it2 : Item := { it1 with updatedAt := some now }
  match prevDate with
  | none => it2
  | some prev =>
      if now - prev < 1000 then { it2 with updatedAt := some (prev + 1000) }
      else it2

/-- State of the backing store as seen by content fetches: the content
held in the backing store for the item, plus a counter of how many times
the store has been consulted (used to state the memoization property). -/
structure StoreState where
  fetchCount : Nat
  stored : ItemContent
deriving DecidableEq

/-- Modelled from the spec: `Store.getContent` (the `agile_keychain.Vault`
implementation is not under src/).  It fetches and decrypts the item's
content blob from the backing store and memoizes the result on the item,
per spec section 3: "Content is fetched/decrypted lazily and memoized once
per in-memory instance". -/
def Store.getContent (s : StoreState) (it : Item) : Item × StoreState × ItemContent :=
  ({ it with content := some s.stored },
   { s with fetchCount := s.fetchCount + 1 },
   s.stored)

/-- Item.getContent: return the cached content if present; an item with no
store resolves with (and caches) the empty content; otherwise fetch from
the owning store. -/
def Item.getContent (it : Item) (s : StoreState) : Item × StoreState × ItemContent :=
  match it.content with
  | some c => (it, s, c)
  | none =>
      if it.hasStore then Store.getContent s it
      else ({ it with content := some ContentUtil.empty }, s, ContentUtil.empty)

/-- Item.setContent. -/
def Item.setContent (it : Item) (c : ItemContent) : Item :=
  { it with content := some c }

/-- Modelled from the spec: `key_agent.Key` (key_agent.ts is not under
src/).  A wrapped master-key record: identifier, wrapped key material and
a validation block.  The wrapped key and its validation block are
idealized as recording the wrapping password, so that the validation-block
check of spec section 4.2 succeeds exactly when the supplied password
matches the one the key generation was wrapped with. -/
structure Key where
  identifier : String
  password : String
  key : String
deriving DecidableEq

/-- Modelled from the spec: whether `decryptKey` validates this key
generation against the supplied password (spec section 4.2: re-encrypt a
known pattern under the candidate key and compare with the validation
block). -/
def validatesKey (password : String) (k : Key) : Bool :=
  password == k.password

/-- Errors raised by `unlockStore`: the plain `Error` for a store with no
saved keys (carrying its message), or `DecryptionError` when no key
generation validates. -/
inductive UnlockError where
  | noKeys (msg : String)
  | decryptionError
deriving DecidableEq

/-- Modelled from the spec: `key_agent.decryptKeys` (key_agent.ts is not
under src/).  Attempts `decryptKey` against every stored key generation,
returns the generations that validate, and fails with `DecryptionError`
when none does (spec section 4.3). -/
def decryptKeys (keys : List Key) (password : String) : Except UnlockError (List Key) :=
  let valid := keys.filter (validatesKey password)
  if valid.isEmpty then .error .decryptionError else .ok valid

/-- Modelled from the spec: the Key Agent's identifier-to-key table
(key_agent.ts is not under src/). -/
structure KeyAgent where
  table : List (String × String)
deriving DecidableEq

/-- Modelled from the spec: `KeyAgent.addKey` registers key material under
an identifier, replacing any existing entry for that identifier (spec
section 4.2). -/
def KeyAgent.addKey (a : KeyAgent) (id : String) (raw : String) : KeyAgent :=
  ⟨(id, raw) :: a.table.filter (fun e => e.1 != id)⟩

/-- Whether the Key Agent holds a key for the given identifier. -/
def KeyAgent.hasKey (a : KeyAgent) (id : String) : Bool :=
  a.table.any (fun e => e.1 == id)

/-- The key generations saved in a store, as returned by
`Store.listKeys`. -/
structure StoreKeys where
  keys : List Key
deriving DecidableEq

/-- The message of the error thrown by `unlockStore` when the store holds
no saved encryption keys. -/
def noKeysMessage : String :=
  "Unable to unlock store: No encryption keys have been saved"

/-- unlockStore: decrypt the store's encryption keys and add the keys that
validate to the agent.  Fails when the store has no saved keys, or with
`DecryptionError` when no generation validates; on failure the agent is
returned unchanged. -/
def unlockStore (store : StoreKeys) (agent : KeyAgent) (password : String) :
    KeyAgent × Option UnlockError :=
  if store.keys.isEmpty then
    (agent, some (.noKeys noKeysMessage))
  else
    match decryptKeys store.keys password with
    | .error e => (agent, some e)
    | .ok valid =>
        (valid.foldl (fun a k => a.addKey k.identifier k.key) agent, none)

/-- The cheap projection of an item used for enumeration and diffing
(`ItemState`). -/
structure ItemState where
  uuid : String
  revision : Option String
  deleted : Bool
deriving DecidableEq

/-- Options accepted by `Store.listItems` (`ListItemsOptions`). -/
structure ListItemsOptions where
  includeTombstones : Bool := false
deriving DecidableEq

/-- itemStates: the default implementation of `Store.listItemStates` in
terms of `Store.listItems` (the latter passed as a function, abstracting
the store). -/
def itemStates (listItems : ListItemsOptions → List Item) : List ItemState :=
  (listItems { includeTombstones := true }).map fun it =>
    { uuid := it.uuid
      revision := it.revision
      deleted := it.isTombstone }

/-- Reference definition following the spec's words for
`listItemStates()`: a cheap enumeration, including tombstones, of each
item projected to {uuid, revision, deleted}, with uuid and revision copied
unchanged and deleted exactly when the item is a tombstone. -/
def itemStateOfItemSpec (it : Item) : ItemState :=
  { uuid := it.uuid, revision := it.revision, deleted := it.isTombstone }

/-- Reference definition following the spec's words: the item states of
all items, tombstones included, in listing order. -/
def itemStatesSpec (listItems : ListItemsOptions → List Item) : List ItemState :=
  (listItems { includeTombstones := true }).map itemStateOfItemSpec

/-- An item together with its content (`ItemAndContent`). -/
structure ItemAndContent where
  item : Item
  content : ItemContent
deriving DecidableEq

/-- The `contentMetadata` object assembled by `generateRevisionId`,
field for field from the source: {uuid, parentRevision, title, updatedAt,
createdAt, typeName, openContents, folderUuid, faveIndex, trashed,
content}. -/
structure RevisionInput where
  uuid : String
  parentRevision : Option String
  title : String
  updatedAt : Option Int
  createdAt : Option Int
  typeName : String
  openContents : Option ItemOpenContents
  folderUuid : String
  faveIndex : Option Int
  trashed : Bool
  content : ItemContent
deriving DecidableEq

/-- The metadata record that `generateRevisionId` feeds to the digest,
copied field for field from the source. -/
def revisionInput (item : ItemAndContent) : RevisionInput :=
  { uuid := item.item.uuid
    parentRevision := item.item.parentRevision
    title := item.item.title
    updatedAt := item.item.updatedAt
    createdAt := item.item.createdAt
    typeName := item.item.typeName
    openContents := item.item.openContents
    folderUuid := item.item.folderUuid
    faveIndex := item.item.faveIndex
    trashed := item.item.trashed
    content := item.content }

/-- generateRevisionId: a content-based revision ID, the digest of the
item's hashed metadata record.  Modelled from the spec: the digest
pipeline (the JSON.stringify platform builtin, the SHA-1 implementation in
src/crypto/sha1 which is not under src/, and hexlify) is abstracted as a
digest function over the assembled metadata record. -/
def generateRevisionId (digest : RevisionInput → String) (item : ItemAndContent) : String :=
  digest (revisionInput item)

/-- Agreement of two item-and-content values on every field that
`generateRevisionId` feeds to the digest. -/
def agreeOnHashedFields (a b : ItemAndContent) : Prop :=
  a.item.uuid = b.item.uuid ∧
  a.item.parentRevision = b.item.parentRevision ∧
  a.item.title = b.item.title ∧
  a.item.updatedAt = b.item.updatedAt ∧
  a.item.createdAt = b.item.createdAt ∧
  a.item.typeName = b.item.typeName ∧
  a.item.openContents = b.item.openContents ∧
  a.item.folderUuid = b.item.folderUuid ∧
  a.item.faveIndex = b.item.faveIndex ∧
  a.item.trashed = b.item.trashed ∧
  a.content = b.content

instance (a b : ItemAndContent) : Decidable (agreeOnHashedFields a b) := by
  unfold agreeOnHashedFields; exact inferInstance

/-- Modelled from the spec: the derived key used by the item-blob codec
(agile_keychain_crypto.ts is not under src/).  Key derivation is
idealized as the injective pairing of the master key material with the
per-call salt (spec section 4.1: "derives a local key" from the master key
material and the fresh salt). -/
structure DerivedKey where
  master : String
  salt : String
deriving DecidableEq

/-- Modelled from the spec: a ciphertext of the block cipher, idealized as
recording the encryption key and the plaintext; decryption with the wrong
key fails the padding validation instead of yielding plaintext (spec
section 4.1). -/
structure CipherText where
  keyUsed : DerivedKey
  plain : String
deriving DecidableEq

/-- The fixed magic header prefixed to encrypted item blobs. -/
def SALTED_MAGIC : String := "Salted__"

/-- Modelled from the spec: the self-describing encrypted item blob — the
fixed magic header, the per-call salt, and the ciphertext (spec section
4.1). -/
structure ItemBlob where
  magic : String
  salt : String
  cipher : CipherText
deriving DecidableEq

/-- Failure of `decryptItemBlob`: `DecryptionError`, raised on a bad
password or a corrupted blob without distinguishing the two. -/
inductive DecryptionError where
  | wrongPasswordOrCorrupt
deriving DecidableEq

/-- Modelled from the spec: `encryptAgileKeychainItemData`
(agile_keychain_crypto.ts is not under src/).  The fresh random salt is an
explicit argument; the blob carries the magic header, the salt, and the
plaintext encrypted under the key derived from the master key material and
the salt. -/
def encryptItemBlob (master plaintext salt : String) : ItemBlob :=
  { magic := SALTED_MAGIC
    salt := salt
    cipher := { keyUsed := { master := master, salt := salt }, plain := plaintext } }

/-- Modelled from the spec: `decryptAgileKeychainItemData`
(agile_keychain_crypto.ts is not under src/).  Validates the header magic,
re-derives the key from the embedded salt, and decrypts; any failure
raises `DecryptionError`. -/
def decryptItemBlob (master : String) (blob : ItemBlob) : Except DecryptionError String :=
  if blob.magic ≠ SALTED_MAGIC then .error .wrongPasswordOrCorrupt
  else if blob.cipher.keyUsed = { master := master, salt := blob.salt } then
    .ok blob.cipher.plain
  else .error .wrongPasswordOrCorrupt

/-- A concrete saved login item used to instantiate the theorems below. -/
def sampleItem : Item :=
  { hasStore := true
    revision := some "rev1"
    parentRevision := none
    uuid := "CA20BB325873446966ED1F4E641B5A36"
    folderUuid := ""
    faveIndex := none
    trashed := false
    updatedAt := some 1398413120000
    createdAt := some 1398413120000
    typeName := ItemTypes.LOGIN
    title := "Facebook"
    openContents := none
    locations := ["facebook.com"]
    account := ""
    content := none }

/-- A concrete item that has never been associated with a store. -/
def sampleUnsavedItem : Item :=
  { sampleItem with hasStore := false, revision := none, updatedAt := none }

/-- A concrete item content value used to instantiate the theorems
below. -/
def sampleContent : ItemContent :=
  { ContentUtil.empty with
      urls := [{ label := "website", url := "facebook.com" }]
      notes := "a note" }

/-- A concrete backing-store state used to instantiate the theorems
below. -/
def sampleStoreState : StoreState :=
  { fetchCount := 0, stored := sampleContent }

-- ## Theorems

/-- C2: for every item associated with a store, remove() puts the item
into tombstone form and persists it through the store's saveItem (the same
revisioned save path as a normal save): afterwards typeName equals the
Tombstone type, trashed is true, the content is the empty ItemContent,
locations is [], folderUuid is the empty string, and the uuid is unchanged
from before the call. -/
theorem remove_creates_tombstone (it : Item) (h : it.hasStore = true) :
    ∃ m : Item,
      Item.remove it = (m, Except.ok (StoreCall.saveItem m)) ∧
      m.typeName = ItemTypes.TOMBSTONE ∧
      m.trashed = true ∧
      m.content = some ContentUtil.empty ∧
      m.locations = [] ∧
      m.folderUuid = "" ∧
      m.uuid = it.uuid := by
  refine ⟨{ it with
              typeName := ItemTypes.TOMBSTONE
              title := "Unnamed"
              trashed := true
              content := some ContentUtil.empty
              folderUuid := ""
              locations := []
              faveIndex := none
              openContents := none },
          ?_, rfl, rfl, rfl, rfl, rfl, rfl⟩
  simp [Item.remove, h]

/-- Witness for C2 at a concrete saved item. -/
theorem remove_creates_tombstone_witness :
    ∃ m : Item,
      Item.remove sampleItem = (m, Except.ok (StoreCall.saveItem m)) ∧
      m.typeName = ItemTypes.TOMBSTONE ∧
      m.trashed = true ∧
      m.content = some ContentUtil.empty ∧
      m.locations = [] ∧
      m.folderUuid = "" ∧
      m.uuid = sampleItem.uuid :=
  remove_creates_tombstone sampleItem rfl

/-- C3: for every item whose updatedAt is already set, the timestamp
update performed on save yields a strictly larger updatedAt with a minimum
step of one second (1000 ms), even when the new clock reading is less than
one second after the previous value. -/
theorem updateTimestamps_min_step (it : Item) (now prev : Int)
    (h : it.updatedAt = some prev) :
    ∃ q : Int,
      (it.updateTimestamps now).updatedAt = some q ∧
      prev + 1000 ≤ q ∧ prev < q := by
  unfold Item.updateTimestamps
  by_cases hc : it.createdAt.isNone <;> simp [hc, h] <;>
    by_cases hlt : now - prev < 1000 <;> simp [hlt] <;> omega

/-- Witness for C3: two saves of the same item within the same second
still advance updatedAt by at least 1000 ms. -/
theorem updateTimestamps_min_step_witness :
    ∃ q : Int,
      (sampleItem.updateTimestamps 1398413120200).updatedAt = some q ∧
      1398413120000 + 1000 ≤ q ∧ (1398413120000 : Int) < q :=
  updateTimestamps_min_step sampleItem 1398413120200 1398413120000 rfl

/-- C8: for every Item not associated with a store, save(), remove() and
getRawDecryptedData() reject with UnsavedItemError, and saveTo rejects a
never-saved item with no content set; in each failing case the item's
fields are left unchanged (remove performs none of its tombstone
mutations). -/
theorem unsaved_item_operations_reject :
    (∀ it : Item, it.hasStore = false →
       Item.save it = (it, Except.error (ItemError.unsavedItem unsavedItemMessage)) ∧
       Item.remove it = (it, Except.error (ItemError.unsavedItem unsavedItemMessage)) ∧
       Item.getRawDecryptedData it = Except.error (ItemError.unsavedItem unsavedItemMessage)) ∧
    (∀ it : Item, it.isSaved = false → it.content = none →
       Item.saveTo it =
         (it, Except.error
            (ItemError.saveWithoutContent "Unable to save new item, no content set"))) := by
  constructor
  · intro it h
    refine ⟨?_, ?_, ?_⟩ <;> simp [Item.save, Item.remove, Item.getRawDecryptedData, h]
  · intro it hsaved hcontent
    simp [Item.saveTo, hsaved, hcontent]

/-- Witness for C8 at a concrete store-less item. -/
theorem unsaved_item_operations_reject_witness :
    (Item.save sampleUnsavedItem =
       (sampleUnsavedItem, Except.error (ItemError.unsavedItem unsavedItemMessage)) ∧
     Item.remove sampleUnsavedItem =
       (sampleUnsavedItem, Except.error (ItemError.unsavedItem unsavedItemMessage)) ∧
     Item.getRawDecryptedData sampleUnsavedItem =
       Except.error (ItemError.unsavedItem unsavedItemMessage)) ∧
    Item.saveTo sampleUnsavedItem =
      (sampleUnsavedItem, Except.error
         (ItemError.saveWithoutContent "Unable to save new item, no content set")) :=
  ⟨unsaved_item_operations_reject.1 sampleUnsavedItem rfl,
   unsaved_item_operations_reject.2 sampleUnsavedItem rfl rfl⟩

/-- C9: for every store whose listKeys resolves with an empty list,
unlockStore rejects with the error message "Unable to unlock store: No
encryption keys have been saved" for every password, and the key agent is
left unchanged (no key is added). -/
theorem unlockStore_empty_keys (s : StoreKeys) (a : KeyAgent) (pw : String)
    (h : s.keys = []) :
    unlockStore s a pw = (a, some (UnlockError.noKeys noKeysMessage)) := by
  simp [unlockStore, h]

/-- Witness for C9 at a concrete empty store. -/
theorem unlockStore_empty_keys_witness :
    unlockStore ⟨[]⟩ ⟨[]⟩ "logMEin" = (⟨[]⟩, some (UnlockError.noKeys noKeysMessage)) :=
  unlockStore_empty_keys ⟨[]⟩ ⟨[]⟩ "logMEin" rfl

/-- C10: for every Item with no associated store and no content set,
getContent() resolves with the empty ItemContent (all list fields empty
and all string fields the empty string), memoizes that value on the
instance, and leaves the backing store untouched (no fetch, no key
needed). -/
theorem getContent_no_store_resolves_empty (it : Item) (s : StoreState)
    (h1 : it.hasStore = false) (h2 : it.content = none) :
    Item.getContent it s =
      ({ it with content := some ContentUtil.empty }, s, ContentUtil.empty) ∧
    ContentUtil.empty.sections = [] ∧
    ContentUtil.empty.urls = [] ∧
    ContentUtil.empty.formFields = [] ∧
    ContentUtil.empty.notes = "" ∧
    ContentUtil.empty.htmlMethod = "" ∧
    ContentUtil.empty.htmlAction = "" ∧
    ContentUtil.empty.htmlId = "" := by
  refine ⟨?_, rfl, rfl, rfl, rfl, rfl, rfl, rfl⟩
  simp [Item.getContent, h1, h2]

/-- Witness for C10 at a concrete store-less, content-less item. -/
theorem getContent_no_store_resolves_empty_witness :
    Item.getContent sampleUnsavedItem sampleStoreState =
      ({ sampleUnsavedItem with content := some ContentUtil.empty },
       sampleStoreState, ContentUtil.empty) ∧
    ContentUtil.empty.sections = [] ∧
    ContentUtil.empty.urls = [] ∧
    ContentUtil.empty.formFields = [] ∧
    ContentUtil.empty.notes = "" ∧
    ContentUtil.empty.htmlMethod = "" ∧
    ContentUtil.empty.htmlAction = "" ∧
    ContentUtil.empty.htmlId = "" :=
  getContent_no_store_resolves_empty sampleUnsavedItem sampleStoreState rfl rfl

/-- C4: for all (password, plaintext) — and every per-call salt —
decrypting the blob produced by encryptItemBlob under the same password
returns exactly the original plaintext, and decrypting that blob under any
other password fails with DecryptionError rather than returning incorrect
plaintext. -/
theorem itemBlob_roundtrip :
    (∀ password plaintext salt : String,
       decryptItemBlob password (encryptItemBlob password plaintext salt) =
         Except.ok plaintext) ∧
    (∀ password plaintext salt other : String, other ≠ password →
       decryptItemBlob other (encryptItemBlob password plaintext salt) =
         Except.error DecryptionError.wrongPasswordOrCorrupt) := by
  constructor
  · intro password plaintext salt
    simp [decryptItemBlob, encryptItemBlob]
  · intro password plaintext salt other hne
    simp [decryptItemBlob, encryptItemBlob]
    intro hmaster
    exact absurd hmaster.symm hne

/-- Witness for C4 at concrete passwords and plaintext. -/
theorem itemBlob_roundtrip_witness :
    decryptItemBlob "item password"
        (encryptItemBlob "item password" "secret-data" "salt0") =
      Except.ok "secret-data" ∧
    decryptItemBlob "wrong-pass"
        (encryptItemBlob "item password" "secret-data" "salt0") =
      Except.error DecryptionError.wrongPasswordOrCorrupt :=
  ⟨itemBlob_roundtrip.1 "item password" "secret-data" "salt0",
   itemBlob_roundtrip.2 "item password" "secret-data" "salt0" "wrong-pass"
     (by decide)⟩

/-- Adding a key makes it available under its identifier. -/
theorem KeyAgent.hasKey_addKey_self (a : KeyAgent) (id raw : String) :
    (a.addKey id raw).hasKey id = true := by
  simp [KeyAgent.addKey, KeyAgent.hasKey]

/-- Adding a key never removes availability of other identifiers. -/
theorem KeyAgent.hasKey_addKey_mono (a : KeyAgent) (id raw idq : String)
    (h : a.hasKey idq = true) : (a.addKey id raw).hasKey idq = true := by
  unfold KeyAgent.hasKey at h ⊢
  unfold KeyAgent.addKey
  rw [List.any_eq_true] at h ⊢
  obtain ⟨e, he, heq⟩ := h
  have h1 : e.1 = idq := by simpa using heq
  by_cases hid : idq = id
  · exact ⟨(id, raw), List.mem_cons_self _ _, by simp [hid]⟩
  · refine ⟨e, List.mem_cons_of_mem _ (List.mem_filter.mpr ⟨he, ?_⟩), heq⟩
    simp [h1, hid]

/-- Folding addKey over a list of keys preserves availability. -/
theorem KeyAgent.hasKey_foldl_addKey_mono (l : List Key) (a : KeyAgent) (idq : String)
    (h : a.hasKey idq = true) :
    (l.foldl (fun a k => a.addKey k.identifier k.key) a).hasKey idq = true := by
  induction l generalizing a with
  | nil => exact h
  | cons x xs ih =>
      exact ih _ (KeyAgent.hasKey_addKey_mono a x.identifier x.key idq h)

/-- Folding addKey over a list of keys makes every key of the list
available under its identifier. -/
theorem KeyAgent.hasKey_foldl_addKey (l : List Key) (a : KeyAgent) (k : Key)
    (hk : k ∈ l) :
    (l.foldl (fun a k => a.addKey k.identifier k.key) a).hasKey k.identifier = true := by
  induction l generalizing a with
  | nil => cases hk
  | cons x xs ih =>
      rcases List.mem_cons.mp hk with hx | hx
      · subst hx
        exact KeyAgent.hasKey_foldl_addKey_mono xs _ k.identifier
          (KeyAgent.hasKey_addKey_self a k.identifier k.key)
      · exact ih (a.addKey x.identifier x.key) hx

/-- C5: for every store holding one or more wrapped key generations,
unlock(password) succeeds if at least one stored generation validates
against the password (in particular with independently wrapped
generations); on success every key generation that validates is added to
the key agent; with a password that validates no generation it fails with
DecryptionError and leaves the agent unchanged. -/
theorem unlockStore_any_generation :
    ∀ (s : StoreKeys) (a : KeyAgent) (pw : String), s.keys ≠ [] →
      ((∃ k ∈ s.keys, validatesKey pw k = true) →
         (unlockStore s a pw).2 = none ∧
         ∀ k ∈ s.keys, validatesKey pw k = true →
           ((unlockStore s a pw).1).hasKey k.identifier = true) ∧
      ((∀ k ∈ s.keys, validatesKey pw k = false) →
         unlockStore s a pw = (a, some UnlockError.decryptionError)) := by
  intro s a pw hne
  constructor
  · intro hex
    have hfil : s.keys.filter (validatesKey pw) ≠ [] := by
      obtain ⟨k, hk, hv⟩ := hex
      intro hnil
      have : k ∈ s.keys.filter (validatesKey pw) := List.mem_filter.mpr ⟨hk, hv⟩
      rw [hnil] at this
      cases this
    constructor
    · simp [unlockStore, decryptKeys, hne, List.isEmpty_iff, hfil]
    · intro k hk hv
      have hmem : k ∈ s.keys.filter (validatesKey pw) := List.mem_filter.mpr ⟨hk, hv⟩
      have hgoal :
          (unlockStore s a pw).1 =
            (s.keys.filter (validatesKey pw)).foldl
              (fun a k => a.addKey k.identifier k.key) a := by
        simp [unlockStore, decryptKeys, hne, List.isEmpty_iff, hfil]
      rw [hgoal]
      exact KeyAgent.hasKey_foldl_addKey _ a k hmem
  · intro hnone
    have hfil : s.keys.filter (validatesKey pw) = [] := by
      apply List.filter_eq_nil_iff.mpr
      intro k hk
      simp [hnone k hk]
    simp [unlockStore, decryptKeys, hne, List.isEmpty_iff, hfil]

/-- Witness for C5: a vault with two independently wrapped key generations
unlocks with a password validating only the second generation, and fails
with DecryptionError for a password validating neither. -/
theorem unlockStore_any_generation_witness :
    ((unlockStore ⟨[⟨"gen1", "oldpass", "K1"⟩, ⟨"gen2", "newpass", "K2"⟩]⟩ ⟨[]⟩
        "newpass").2 = none ∧
     ∀ k ∈ [(⟨"gen1", "oldpass", "K1"⟩ : Key), ⟨"gen2", "newpass", "K2"⟩],
       validatesKey "newpass" k = true →
         ((unlockStore ⟨[⟨"gen1", "oldpass", "K1"⟩, ⟨"gen2", "newpass", "K2"⟩]⟩ ⟨[]⟩
             "newpass").1).hasKey k.identifier = true) ∧
    unlockStore ⟨[⟨"gen1", "oldpass", "K1"⟩, ⟨"gen2", "newpass", "K2"⟩]⟩ ⟨[]⟩
        "badpass" =
      (⟨[]⟩, some UnlockError.decryptionError) :=
  ⟨(unlockStore_any_generation ⟨[⟨"gen1", "oldpass", "K1"⟩, ⟨"gen2", "newpass", "K2"⟩]⟩
      ⟨[]⟩ "newpass" (by decide)).1
      ⟨⟨"gen2", "newpass", "K2"⟩, by decide, by decide⟩,
   (unlockStore_any_generation ⟨[⟨"gen1", "oldpass", "K1"⟩, ⟨"gen2", "newpass", "K2"⟩]⟩
      ⟨[]⟩ "badpass" (by decide)).2 (by decide)⟩

/-- C6: content is fetched lazily and memoized once per in-memory item:
a call with cached content returns it without touching the store, any call
increments the store fetch count at most once, and a second call after the
first returns exactly the same item, store state and content (the store is
not consulted again). -/
theorem getContent_memoized :
    (∀ (it : Item) (s : StoreState) (c : ItemContent), it.content = some c →
       Item.getContent it s = (it, s, c)) ∧
    (∀ (it : Item) (s : StoreState),
       ((Item.getContent it s).2.1).fetchCount ≤ s.fetchCount + 1 ∧
       Item.getContent (Item.getContent it s).1 (Item.getContent it s).2.1 =
         Item.getContent it s) := by
  constructor
  · intro it s c h
    simp [Item.getContent, h]
  · intro it s
    match hc : it.content with
    | some c =>
        constructor
        · simp [Item.getContent, hc]
        · simp [Item.getContent, hc]
    | none =>
        by_cases hs : it.hasStore
        · constructor
          · simp [Item.getContent, hc, hs, Store.getContent]
          · simp [Item.getContent, hc, hs, Store.getContent]
        · constructor
          · simp [Item.getContent, hc, hs]
          · simp [Item.getContent, hc, hs]

/-- Witness for C6: the cached-content branch at a concrete item. -/
theorem getContent_memoized_witness :
    Item.getContent { sampleItem with content := some sampleContent } sampleStoreState =
      ({ sampleItem with content := some sampleContent }, sampleStoreState,
       sampleContent) :=
  getContent_memoized.1 { sampleItem with content := some sampleContent }
    sampleStoreState sampleContent rfl

/-- C7: the default listItemStates implementation (itemStates) returns
exactly the items of listItems with includeTombstones set, projected to
{uuid, revision, deleted} in the same order, with uuid and revision copied
unchanged and deleted exactly when the item is a tombstone; every item of
the tombstone-inclusive listing (tombstones included) appears in the
result. -/
theorem itemStates_refines_listItems :
    (∀ listItems : ListItemsOptions → List Item,
       itemStates listItems = itemStatesSpec listItems) ∧
    (∀ (listItems : ListItemsOptions → List Item) (it : Item),
       it ∈ listItems { includeTombstones := true } →
       itemStateOfItemSpec it ∈ itemStates listItems) := by
  constructor
  · intro listItems
    rfl
  · intro listItems it hmem
    exact List.mem_map_of_mem itemStateOfItemSpec hmem

/-- Witness for C7 at a concrete one-item (tombstoned) listing. -/
theorem itemStates_refines_listItems_witness :
    itemStateOfItemSpec { sampleItem with typeName := ItemTypes.TOMBSTONE } ∈
      itemStates (fun _ => [{ sampleItem with typeName := ItemTypes.TOMBSTONE }]) :=
  itemStates_refines_listItems.2
    (fun _ => [{ sampleItem with typeName := ItemTypes.TOMBSTONE }])
    { sampleItem with typeName := ItemTypes.TOMBSTONE }
    (List.mem_singleton.mpr rfl)

/-- C1: the revision ID is content-addressed over exactly {uuid,
parentRevision, title, updatedAt, createdAt, typeName, openContents,
folderUuid, faveIndex, trashed, content}: two item-and-content values
agreeing on all of these fields get the same revision for every digest
(the revision depends on no other field, e.g. not locations or account),
and two values differing in any of these fields get different revisions
for every digest with no collision on the two assembled metadata
records. -/
theorem generateRevisionId_content_addressed :
    (∀ (digest : RevisionInput → String) (a b : ItemAndContent),
       agreeOnHashedFields a b →
       generateRevisionId digest a = generateRevisionId digest b) ∧
    (∀ (digest : RevisionInput → String) (a b : ItemAndContent),
       ¬ agreeOnHashedFields a b →
       (digest (revisionInput a) = digest (revisionInput b) →
          revisionInput a = revisionInput b) →
       generateRevisionId digest a ≠ generateRevisionId digest b) := by
  constructor
  · intro digest a b hagree
    obtain ⟨h1, h2, h3, h4, h5, h6, h7, h8, h9, h10, h11⟩ := hagree
    unfold generateRevisionId revisionInput
    rw [h1, h2, h3, h4, h5, h6, h7, h8, h9, h10, h11]
  · intro digest a b hne hcol heq
    apply hne
    have h := hcol heq
    unfold revisionInput at h
    simp only [RevisionInput.mk.injEq] at h
    exact h

/-- Witness for C1: items agreeing on the hashed fields but with different
locations get the same revision; changing only the title changes the
revision (here under the title-projection digest, which is collision-free
on the two records). -/
theorem generateRevisionId_content_addressed_witness :
    generateRevisionId (fun r => r.title)
        ⟨{ sampleItem with locations := [] }, sampleContent⟩ =
      generateRevisionId (fun r => r.title) ⟨sampleItem, sampleContent⟩ ∧
    generateRevisionId (fun r => r.title)
        ⟨{ sampleItem with title := "Twitter" }, sampleContent⟩ ≠
      generateRevisionId (fun r => r.title) ⟨sampleItem, sampleContent⟩ :=
  ⟨generateRevisionId_content_addressed.1 (fun r => r.title)
     ⟨{ sampleItem with locations := [] }, sampleContent⟩
     ⟨sampleItem, sampleContent⟩ (by decide),
   generateRevisionId_content_addressed.2 (fun r => r.title)
     ⟨{ sampleItem with title := "Twitter" }, sampleContent⟩
     ⟨sampleItem, sampleContent⟩ (by decide)
     (fun h => absurd h (by decide))⟩

end Passcards
